import Mathlib

/-!
Verification of the fuzzy product-matching engine of the demo-ecommerce-scraping
repository.  The definitions below are shallow embeddings of the Python source:

* `src/dags/data_processing/mapping_product_name.py` (the DAG variant, primary),
* `src/poc/find_similar_openai.py` (poc variant),
* `src/app/archived/find_similar_gemini.py` (batched-embedding variant),
* `src/app/archived/find_similar_qwen.py` (similarity-only variant),
* `src/dags/data_processing/write_compare_price_report.py` (report variant).

Machine floats are modelled as exact rationals; remote-call outcomes are
modelled as `Except` values supplied as explicit oracle inputs.
-/

namespace DemoEcommerce

/-- Embeds the Python `str.strip()` method: removes leading and trailing
whitespace characters (the ASCII whitespace cases suffice for every string
occurring in this development). -/
def pyStrip (s : String) : String :=
  List.asString (((s.toList.dropWhile Char.isWhitespace).reverse.dropWhile
    Char.isWhitespace).reverse)

/-- Exceptions that the Python code can raise: a remote-call failure
(`openai`/`genai` exceptions), an `IndexError` from list/row indexing, and the
`pickle.UnpicklingError` raised when deserializing a corrupt cache blob. -/
inductive Err where
  | remote : Err
  | indexError : Err
  | unpickling : Err
deriving DecidableEq, Repr

/-- One row of a product table, as handed to the matcher by the upstream
extraction step: `{product_name, sale_price}`.  Prices are modelled as exact
rationals. -/
structure Row where
  product_name : String
  sale_price : ℚ
deriving DecidableEq, Repr

/-- The per-row result dictionary built by `process_product_row`
(mapping_product_name.py lines 256-287): the field names mirror the Python
dictionary keys. -/
structure CompareRecord where
  base_product_name_from_line : String
  base_product_name_from_watson : String
  price_from_line : ℚ
  price_from_watson : ℚ
  similarity : ℚ
  verified_match : Bool
deriving DecidableEq, Repr

/-- Embeds `verify_products_similarity` of mapping_product_name.py
(lines 167-202).  `product_list_to_compare` is the candidate list, and `resp`
is the outcome of the remote `client.chat.completions.create` call: `.error`
models the call raising (caught at lines 200-202, returning no-match), `.ok
raw` models the raw text `response.choices[0].message.content`.  Line 195
strips the raw content, and line 196 accepts it only when it is not the
literal string "None" and occurs in the candidate list. -/
def verify_products_similarity (product_list_to_compare : List String)
    (resp : Except Err String) : Option String × Bool :=
  if product_list_to_compare.isEmpty then (none, false)
  else
    match resp with
    | .error _ => (none, false)
    | .ok raw =>
      let content := pyStrip raw
      if content ≠ "None" ∧ content ∈ product_list_to_compare then
        (some content, true)
      else (none, false)

/-- Dot product of two vectors, embedding `np.dot` on equal-length 1-d arrays
(zip truncation never fires on the shapes the code builds). -/
def dot (a b : List ℚ) : ℚ := (List.zipWith (fun x y => x * y) a b).sum

/-- Sum of squares of a vector; `np.linalg.norm v < eps` (with `eps ≥ 0`) is
embedded as `sumSq v < eps ^ 2`, which is equivalent because both sides of the
original comparison are nonnegative and squaring is monotone there. -/
def sumSq (v : List ℚ) : ℚ := (v.map (fun x => x * x)).sum

/-- The comparison `np.argsort` sorts by: index `i` comes before `j` when the
value at `i` is smaller, with ties broken by index order (the stable reading
of argsort; numpy's default introsort coincides with the stable insertion
sort on the small arrays this code feeds it). -/
def idxLe (sims : List ℚ) (i j : ℕ) : Prop :=
  sims.getD i 0 < sims.getD j 0 ∨ (sims.getD i 0 = sims.getD j 0 ∧ i ≤ j)

instance (sims : List ℚ) : DecidableRel (idxLe sims) := fun i j => by
  unfold idxLe; infer_instance

instance (sims : List ℚ) : IsTotal ℕ (idxLe sims) := by
  constructor
  intro i j
  rcases lt_trichotomy (sims.getD i 0) (sims.getD j 0) with h | h | h
  · exact Or.inl (Or.inl h)
  · rcases Nat.le_total i j with hij | hij
    · exact Or.inl (Or.inr ⟨h, hij⟩)
    · exact Or.inr (Or.inr ⟨h.symm, hij⟩)
  · exact Or.inr (Or.inl h)

instance (sims : List ℚ) : IsTrans ℕ (idxLe sims) := by
  constructor
  intro a b c hab hbc
  rcases hab with hab | ⟨hab, hab'⟩ <;> rcases hbc with hbc | ⟨hbc, hbc'⟩
  · exact Or.inl (hab.trans hbc)
  · exact Or.inl (hbc ▸ hab)
  · exact Or.inl (hab ▸ hbc)
  · exact Or.inr ⟨hab.trans hbc, hab'.trans hbc'⟩

/-- Embeds `np.argsort(similarities)`: the list of all indices of `sims`
sorted ascending by value (stably). -/
def argsortAsc (sims : List ℚ) : List ℕ :=
  List.insertionSort (idxLe sims) (List.range sims.length)

/-- Embeds line 162 of mapping_product_name.py:
`top_n_indices = np.argsort(similarities)[::-1][:top_n]`. -/
def top_n_indices (sims : List ℚ) (top_n : ℕ) : List ℕ :=
  ((argsortAsc sims).reverse).take top_n

/-- Embeds line 163 of mapping_product_name.py:
`top_n_similarities = similarities[top_n_indices]`. -/
def top_n_similarities (sims : List ℚ) (top_n : ℕ) : List ℚ :=
  (top_n_indices sims top_n).map (fun i => sims.getD i 0)

/-- The ordered sequence of `(index, cosineSimilarity)` pairs the retrieval
step hands downstream: the zip of the two parallel arrays returned by
`find_best_match_in_context`. -/
def topKPairs (sims : List ℚ) (top_n : ℕ) : List (ℕ × ℚ) :=
  (top_n_indices sims top_n).zip (top_n_similarities sims top_n)

/-- Embeds lines 157-159 of mapping_product_name.py:
`similarities = np.dot(ctx, q) / (np.linalg.norm(ctx, axis=1) *
np.linalg.norm(q))`.  The two norm factors are irrational in general, so they
are supplied as explicit arguments `ctxNorms` and `qnorm` (exactly as the
gemini variant already does for the context norms); division by a zero factor
yields `0` here where numpy would yield `nan`, and no theorem below depends
on the value produced in that case. -/
def dag_similarities (ctx : List (List ℚ)) (q : List ℚ) (ctxNorms : List ℚ)
    (qnorm : ℚ) : List ℚ :=
  List.zipWith (fun base n => dot base q / (n * qnorm)) ctx ctxNorms

/-- The base catalog as the row-matching step sees it: the context rows
(`context_df`), their embedding matrix (`context_embeddings_np`) and the
per-row L2 norms (`np.linalg.norm(context_embeddings_np, axis=1)`, supplied
as data since square roots are irrational in general). -/
structure Context where
  rows : List Row
  embeddings : List (List ℚ)
  norms : List ℚ
deriving Repr

/-- The outcomes of the remote calls made by one attempt of
`process_product_row`: `embed` is the result of `embedding_from_string` for
the query (the embedding together with the value of its L2 norm), and
`verifyResp` is the outcome of the chat-completion call inside
`verify_products_similarity`. -/
structure AttemptEnv where
  embed : Except Err (List ℚ × ℚ)
  verifyResp : Except Err String

/-- Embeds `context_df.row(i, named=True)` for a list of indices
(mapping_product_name.py line 244): Python raises `IndexError` at the first
out-of-range index of the comprehension. -/
def fetchRows (rows : List Row) : List ℕ → Except Err (List Row)
  | [] => .ok []
  | i :: is =>
    match rows.get? i with
    | none => .error .indexError
    | some r =>
      match fetchRows rows is with
      | .error e => .error e
      | .ok rs => .ok (r :: rs)

/-- The sentinel record returned after all retries fail
(mapping_product_name.py lines 280-287). -/
def failedRecord (row : Row) : CompareRecord :=
  { base_product_name_from_line := row.product_name
    base_product_name_from_watson := "Matching Failed"
    price_from_line := row.sale_price
    price_from_watson := 0
    similarity := 0
    verified_match := false }

/-- The body of one attempt of `process_product_row`
(mapping_product_name.py lines 241-273): find the top-3 candidates, fetch the
matched context rows, call the verifier, and build either the verified record
or the unverified top-1 best guess.  A `.error` value models an exception
escaping the attempt (to be caught by the retry loop); the verifier call
itself catches its own exceptions. -/
def attemptBody (row : Row) (ctx : Context) (env : AttemptEnv) :
    Except Err CompareRecord :=
  match env.embed with
  | .error e => .error e
  | .ok (q, qnorm) =>
    let sims := dag_similarities ctx.embeddings q ctx.norms qnorm
    let match_indices := top_n_indices sims 3
    let similarity_scores := top_n_similarities sims 3
    match fetchRows ctx.rows match_indices with
    | .error e => .error e
    | .ok matched_products =>
      let matched_product_names := matched_products.map
        (fun p => p.product_name)
      match verify_products_similarity matched_product_names env.verifyResp
        with
      | (vopt, true) =>
        match vopt with
        | none => .error .indexError
        | some verified_product_name =>
          let j := matched_product_names.indexOf verified_product_name
          match match_indices.get? j with
          | none => .error .indexError
          | some original_match_index =>
            match similarity_scores.get? j, ctx.rows.get? original_match_index
              with
            | some similarity_score, some matched_product_info =>
              .ok { base_product_name_from_line := row.product_name
                    base_product_name_from_watson := verified_product_name
                    price_from_line := row.sale_price
                    price_from_watson := matched_product_info.sale_price
                    similarity := similarity_score
                    verified_match := true }
            | _, _ => .error .indexError
      | (_, false) =>
        match matched_products, similarity_scores with
        | top_match_info :: _, s0 :: _ =>
          .ok { base_product_name_from_line := row.product_name
                base_product_name_from_watson := top_match_info.product_name
                price_from_line := row.sale_price
                price_from_watson := top_match_info.sale_price
                similarity := s0
                verified_match := false }
        | _, _ => .error .indexError

/-- Embeds the retry loop `for attempt in range(3): try ... except ...`
(mapping_product_name.py lines 240-277 followed by the fallback return at
lines 280-287): run attempts `i, i+1, ...` while `n` attempts remain; the
first attempt that does not raise supplies the result; if every attempt
raises, the fallback sentinel is returned.  The `time.sleep(5)` pacing
between attempts has no observable effect on the produced value and is not
modelled. -/
def runAttempts (body : ℕ → Except Err CompareRecord)
    (fallback : CompareRecord) : ℕ → ℕ → CompareRecord
  | _, 0 => fallback
  | i, n + 1 =>
    match body i with
    | .ok r => r
    | .error _ => runAttempts body fallback (i + 1) n

/-- Embeds `process_product_row` (mapping_product_name.py lines 207-287):
rows with a falsy (empty) name return `None` (line 237-238); otherwise the
attempt loop runs at most 3 times and the failure sentinel is the fallback.
`envs i` supplies the remote-call outcomes of attempt `i`. -/
def process_product_row (row : Row) (ctx : Context) (envs : ℕ → AttemptEnv) :
    Option CompareRecord :=
  if row.product_name = "" then none
  else some (runAttempts (fun i => attemptBody row ctx (envs i))
    (failedRecord row) 0 3)

/-- Embeds the driver loop (mapping_product_name.py lines 291-307): one
`process_product_row` task per query row, results appended when truthy
(`if result:`).  The thread pool only affects the order in which results are
appended, which no claim depends on, so the loop is modelled sequentially;
`envs i j` supplies the remote-call outcomes of attempt `j` of row `i`. -/
def processQueryTable (ctx : Context) :
    List Row → (ℕ → ℕ → AttemptEnv) → List CompareRecord
  | [], _ => []
  | row :: rest, envs =>
    match process_product_row row ctx (envs 0) with
    | none => processQueryTable ctx rest (fun i => envs (i + 1))
    | some r => r :: processQueryTable ctx rest (fun i => envs (i + 1))

/-- Embeds `np.argmax`: the first index attaining the maximum value, or `-1`
only for the empty list (numpy raises there; the gemini caller never passes
an empty similarity vector because it exits when no context embedding
survives filtering). -/
def argmaxIdx : List ℚ → Int
  | [] => -1
  | x :: xs =>
    match argmaxIdx xs with
    | .negSucc _ => 0
    | .ofNat j =>
      if (x :: xs).getD (j + 1) 0 > x then Int.ofNat (j + 1) else 0

/-- Embeds `find_best_match_in_context` of find_similar_gemini.py
(lines 162-194).  `contextSimilarities` is the vector
`np.dot(ctx, q) / (context_norms * query_norm)` of the else branch, supplied
via `dag_similarities`; `qnorm` stands for `np.linalg.norm(query_embedding)`
and the guard `query_norm < 1e-9` is embedded on it directly. -/
def gemini_find_best_match (query_embedding : List ℚ)
    (context_embeddings : List (List ℚ)) (context_norms : List ℚ)
    (qnorm : ℚ) : Int × ℚ :=
  if query_embedding.length = 0 then (-1, 0)
  else if qnorm < 1 / 1000000000 then (-1, 0)
  else
    let similarities := dag_similarities context_embeddings query_embedding
      context_norms qnorm
    (argmaxIdx similarities,
      similarities.getD (argmaxIdx similarities).toNat 0)

/-- The embedding cache: a mapping from text to vector, modelled as an
association list where the most recent binding of a key shadows older
ones (matching Python dict assignment). -/
abbrev Cache := List (String × List ℚ)

/-- Embeds `text in cache` / `cache[text]`: the value of the most recent
binding of `k`. -/
def cacheLookup (c : Cache) (k : String) : Option (List ℚ) :=
  (c.find? (fun p => p.1 == k)).map (fun p => p.2)

/-- Embeds `for text, embedding in ...: cache[text] = embedding`
(find_similar_gemini.py lines 61-62 and 69-70): sequential dict
assignments. -/
def insertBatch (c : Cache) (kvs : List (String × List ℚ)) : Cache :=
  kvs.foldl (fun acc kv => kv :: acc) c

/-- Lexicographic comparison of character lists by code point: the string
comparison Python's `sorted()` performs. -/
def charListLeb : List Char → List Char → Bool
  | [], _ => true
  | _ :: _, [] => false
  | c :: cs, d :: ds =>
    if c < d then true else if d < c then false else charListLeb cs ds

/-- Code-point lexicographic string comparison (Python string `<=`). -/
def strLeb (a b : String) : Bool := charListLeb a.toList b.toList

/-- Embeds `texts_to_embed = sorted(list(set(t for t in texts if t.strip()
and t not in cache)))` (find_similar_gemini.py line 38): keep the non-blank
texts missing from the cache, deduplicate, sort ascending. -/
def textsToEmbed (texts : List String) (cache : Cache) : List String :=
  List.insertionSort (fun a b => strLeb a b = true)
    ((texts.filter (fun t => pyStrip t ≠ "" ∧ cacheLookup cache t = none)).dedup)

/-- Embeds `texts_to_embed[i:i + batch_size]` chunking
(find_similar_gemini.py line 48-49), driven by a fuel argument so the
definition is structural (the fuel `l.length` always suffices). -/
def chunksOfAux (batch_size : ℕ) : ℕ → List String → List (List String)
  | 0, _ => []
  | _, [] => []
  | fuel + 1, l => l.take batch_size :: chunksOfAux batch_size fuel
      (l.drop batch_size)

/-- The batches `for i in range(0, len(texts_to_embed), batch_size)`
iterates over.  Python raises `ValueError` on a zero step, so a zero batch
size yields no batches here; every caller passes 100. -/
def chunksOf (batch_size : ℕ) (l : List String) : List (List String) :=
  if batch_size = 0 then [] else chunksOfAux batch_size l.length l

/-- The cache entries one batch contributes (find_similar_gemini.py
lines 50-71): on success the returned vectors are zipped with the batch by
position; on failure every text of the batch is bound to the empty-vector
sentinel `[]`. -/
def batchAssign (api : List String → Except Err (List (List ℚ)))
    (batch : List String) : List (String × List ℚ) :=
  match api batch with
  | .ok new_embeddings => batch.zip new_embeddings
  | .error _ => batch.map (fun t => (t, []))

/-- Embeds `get_embeddings_with_caching` (find_similar_gemini.py
lines 18-82).  `api` is the remote batch-embedding call
(`genai.embed_content`); the early return fires when everything is cached;
otherwise the batches are processed in order, each filling the cache with
its `batchAssign` entries.  Pickle persistence and the inter-batch
`time.sleep(1)` have no effect on the returned cache and are not
modelled. -/
def get_embeddings_with_caching (texts : List String) (cache : Cache)
    (batch_size : ℕ) (api : List String → Except Err (List (List ℚ))) :
    Cache :=
  if (textsToEmbed texts cache).isEmpty then cache
  else (chunksOf batch_size (textsToEmbed texts cache)).foldl
    (fun c batch => insertBatch c (batchAssign api batch)) cache

/-- The state of the persisted cache blob at load time: absent, present but
undeserializable, or present and holding cache `c`. -/
inductive BlobState where
  | missing : BlobState
  | corrupt : BlobState
  | good : Cache → BlobState

/-- Embeds the cache-load sequence (mapping_product_name.py lines 100-105,
identical in find_similar_gemini.py lines 88-93):
`try: cache = pickle.load(open(path)) except FileNotFoundError: cache = {}`.
A missing file raises `FileNotFoundError`, which the handler converts to the
empty cache; a corrupt blob makes `pickle.load` raise `UnpicklingError`,
which no handler catches, so it propagates. -/
def loadEmbeddingCache : BlobState → Except Err Cache
  | .missing => .ok []
  | .corrupt => .error .unpickling
  | .good c => .ok c

/-- Embeds the report filtering (mapping_product_name.py lines 310-314):
keep rows with `similarity >= 0.8` and `verified_match == True`, then add
the `diff` column `price_from_line / price_from_watson`.  Each output row is
the kept record paired with its `diff` value. -/
def filtered_df_results (df_results : List CompareRecord) :
    List (CompareRecord × ℚ) :=
  (df_results.filter
      (fun r => decide (0.8 ≤ r.similarity) && r.verified_match)).map
    (fun r => (r, r.price_from_line / r.price_from_watson))

/-- Embeds the price-difference column of write_compare_price_report.py
(line 109): `diff = price_from_watson - price_from_line`, the signed
difference between the matched price and the query price. -/
def report_diff (price_from_watson price_from_line : ℚ) : ℚ :=
  price_from_watson - price_from_line

/-! ### Helper lemmas shared between the claims -/

/-- Exact characterization of the verifier post-processing: a match is
produced precisely for a successful call whose stripped response is a
candidate other than the literal string "None". -/
theorem verify_spec (cands : List String) (resp : Except Err String)
    (m : String) :
    verify_products_similarity cands resp = (some m, true) ↔
      ∃ raw, resp = .ok raw ∧ m = pyStrip raw ∧ pyStrip raw ≠ "None" ∧
        pyStrip raw ∈ cands := by
  unfold verify_products_similarity
  constructor
  · intro h
    by_cases hc : cands.isEmpty
    · simp [hc] at h
    · simp only [hc, if_false, Bool.false_eq_true] at h
      cases resp with
      | error e => simp at h
      | ok raw =>
        have h' : (if pyStrip raw ≠ "None" ∧ pyStrip raw ∈ cands
            then ((some (pyStrip raw), true) : Option String × Bool)
            else (none, false)) = (some m, true) := h
        by_cases hg : pyStrip raw ≠ "None" ∧ pyStrip raw ∈ cands
        · rw [if_pos hg] at h'
          simp only [Prod.mk.injEq, Option.some.injEq, and_true] at h'
          exact ⟨raw, rfl, h'.symm, hg.1, hg.2⟩
        · simp [hg] at h'
  · rintro ⟨raw, rfl, rfl, hne, hmem⟩
    have hc : cands.isEmpty = false := by
      cases cands with
      | nil => simp at hmem
      | cons a l => rfl
    simp [hc, hne, hmem]

/-- The verifier only ever returns `(none, false)` or a positive match. -/
theorem verify_no_match (cands : List String) (resp : Except Err String)
    (h : (verify_products_similarity cands resp).2 = false) :
    verify_products_similarity cands resp = (none, false) := by
  unfold verify_products_similarity at *
  by_cases hc : cands.isEmpty
  · simp [hc]
  · simp only [hc, if_false, Bool.false_eq_true] at *
    cases resp with
    | error e => rfl
    | ok raw =>
      by_cases hg : pyStrip raw ≠ "None" ∧ pyStrip raw ∈ cands
      · simp [hg] at h
      · simp [hg]

/-- An exception in the remote verification call yields the no-match
result. -/
theorem verify_error (cands : List String) (e : Err) :
    verify_products_similarity cands (.error e) = (none, false) := by
  unfold verify_products_similarity
  by_cases hc : cands.isEmpty <;> simp [hc]

/-- The retry loop either returns the result of some non-raising attempt or
falls back to the sentinel. -/
theorem runAttempts_cases (body : ℕ → Except Err CompareRecord)
    (fallback : CompareRecord) :
    ∀ i n, runAttempts body fallback i n = fallback ∨
      ∃ j, body j = .ok (runAttempts body fallback i n) := by
  intro i n
  induction n generalizing i with
  | zero => exact Or.inl rfl
  | succ n ih =>
    unfold runAttempts
    cases hb : body i with
    | ok r => exact Or.inr ⟨i, hb⟩
    | error e => exact ih (i + 1)

/-- The retry loop only looks at the attempts it runs. -/
theorem runAttempts_congr (body body' : ℕ → Except Err CompareRecord)
    (fallback : CompareRecord) :
    ∀ n i, (∀ j, i ≤ j → j < i + n → body j = body' j) →
      runAttempts body fallback i n = runAttempts body' fallback i n := by
  intro n
  induction n with
  | zero => intro i _; rfl
  | succ n ih =>
    intro i h
    unfold runAttempts
    rw [h i (le_refl i) (by omega)]
    cases body' i with
    | ok r => rfl
    | error e => exact ih (i + 1) (fun j h1 h2 => h j (by omega) (by omega))

/-- Any record an attempt returns with the verified flag set carries a
matched name produced by the verifier, hence never the literal "None". -/
theorem attemptBody_verified_name (row : Row) (ctx : Context)
    (env : AttemptEnv) (r : CompareRecord)
    (h : attemptBody row ctx env = .ok r) (hv : r.verified_match = true) :
    r.base_product_name_from_watson ≠ "None" := by
  unfold attemptBody at h
  cases henv : env.embed with
  | error e => rw [henv] at h; exact absurd h (by simp)
  | ok p =>
    rw [henv] at h
    obtain ⟨q, qnorm⟩ := p
    simp only at h
    cases hf : fetchRows ctx.rows
        (top_n_indices
          (dag_similarities ctx.embeddings q ctx.norms qnorm) 3) with
    | error e => rw [hf] at h; exact absurd h (by simp)
    | ok matched_products =>
      rw [hf] at h
      simp only at h
      cases hvf : verify_products_similarity
          (matched_products.map (fun p => p.product_name)) env.verifyResp with
      | mk vopt flag =>
        rw [hvf] at h
        cases flag with
        | true =>
          cases vopt with
          | none => exact absurd h (by simp)
          | some vname =>
            simp only at h
            cases hj : (top_n_indices
                (dag_similarities ctx.embeddings q ctx.norms qnorm) 3).get?
                ((matched_products.map (fun p => p.product_name)).indexOf
                  vname) with
            | none => rw [hj] at h; exact absurd h (by simp)
            | some original_match_index =>
              rw [hj] at h
              simp only at h
              cases hs : (top_n_similarities
                  (dag_similarities ctx.embeddings q ctx.norms qnorm) 3).get?
                  ((matched_products.map (fun p => p.product_name)).indexOf
                    vname) with
              | none => rw [hs] at h; exact absurd h (by simp)
              | some similarity_score =>
                rw [hs] at h
                cases hr : ctx.rows.get? original_match_index with
                | none => rw [hr] at h; exact absurd h (by simp)
                | some info =>
                  rw [hr] at h
                  simp only [Except.ok.injEq] at h
                  obtain ⟨raw, -, hvn, hne, -⟩ :=
                    (verify_spec _ _ _).mp hvf
                  rw [← h]
                  simpa [hvn] using hne
        | false =>
          cases matched_products with
          | nil => exact absurd h (by simp)
          | cons top rest =>
            cases hsl : top_n_similarities
                (dag_similarities ctx.embeddings q ctx.norms qnorm) 3 with
            | nil => rw [hsl] at h; exact absurd h (by simp)
            | cons s0 srest =>
              rw [hsl] at h
              simp only [Except.ok.injEq] at h
              rw [← h] at hv
              exact absurd hv (by simp)

/-- The argsort is a permutation of the index range. -/
theorem argsortAsc_perm (sims : List ℚ) :
    List.Perm (argsortAsc sims) (List.range sims.length) :=
  List.perm_insertionSort (idxLe sims) (List.range sims.length)

/-- The argsort enumerates as many indices as there are similarities. -/
theorem argsortAsc_length (sims : List ℚ) :
    (argsortAsc sims).length = sims.length := by
  rw [(argsortAsc_perm sims).length_eq, List.length_range]

/-- Every index produced by the argsort is in range. -/
theorem mem_argsortAsc_lt (sims : List ℚ) (i : ℕ)
    (h : i ∈ argsortAsc sims) : i < sims.length :=
  List.mem_range.mp ((argsortAsc_perm sims).mem_iff.mp h)

/-- The top-n slice has length `min n |sims|`. -/
theorem top_n_indices_length (sims : List ℚ) (top_n : ℕ) :
    (top_n_indices sims top_n).length = min top_n sims.length := by
  rw [top_n_indices, List.length_take, List.length_reverse, argsortAsc_length]

/-- Every index in the top-n slice is in range. -/
theorem mem_top_n_indices_lt (sims : List ℚ) (top_n i : ℕ)
    (h : i ∈ top_n_indices sims top_n) : i < sims.length :=
  mem_argsortAsc_lt sims i
    (List.mem_reverse.mp (List.mem_of_mem_take h))

/-- Shape of the similarity vector: one entry per context row that also has
a norm (the two lists always have equal length in the source). -/
theorem dag_similarities_length (ctx : List (List ℚ)) (q : List ℚ)
    (norms : List ℚ) (qnorm : ℚ) :
    (dag_similarities ctx q norms qnorm).length =
      min ctx.length norms.length := by
  rw [dag_similarities, List.length_zipWith]

/-- Row fetching succeeds when every requested index is in range, returning
one context row per index. -/
theorem fetchRows_ok (rows : List Row) (l : List ℕ)
    (h : ∀ i ∈ l, i < rows.length) :
    ∃ rs, fetchRows rows l = .ok rs ∧ rs.length = l.length := by
  induction l with
  | nil => exact ⟨[], rfl, rfl⟩
  | cons i is ih =>
    obtain ⟨rs, hrs, hlen⟩ := ih (fun j hj => h j (List.mem_cons_of_mem i hj))
    have hi : i < rows.length := h i (List.mem_cons_self i is)
    refine ⟨rows.get ⟨i, hi⟩ :: rs, ?_, by simp [hlen]⟩
    unfold fetchRows
    rw [List.get?_eq_get hi, hrs]

/-- An attempt whose embedding succeeded but whose remote verification call
raised completes without raising, producing an unverified best-guess record
(given a well-formed non-empty context). -/
theorem attemptBody_verify_error_ok (row : Row) (ctx : Context) (q : List ℚ)
    (qnorm : ℚ) (e : Err) (hrows : ctx.rows ≠ [])
    (hemb : ctx.embeddings.length = ctx.rows.length)
    (hnorm : ctx.norms.length = ctx.rows.length) :
    ∃ r, attemptBody row ctx ⟨.ok (q, qnorm), .error e⟩ = .ok r ∧
      r.verified_match = false := by
  have hpos : 0 < ctx.rows.length := List.length_pos.mpr hrows
  have hsl : (dag_similarities ctx.embeddings q ctx.norms qnorm).length =
      ctx.rows.length := by
    rw [dag_similarities_length, hemb, hnorm, min_self]
  have hidx : ∀ i ∈ top_n_indices
      (dag_similarities ctx.embeddings q ctx.norms qnorm) 3,
      i < ctx.rows.length :=
    fun i hi => hsl ▸ mem_top_n_indices_lt _ 3 i hi
  obtain ⟨rs, hrs, hlen⟩ := fetchRows_ok ctx.rows
    (top_n_indices (dag_similarities ctx.embeddings q ctx.norms qnorm) 3)
    hidx
  have htn : (top_n_indices
      (dag_similarities ctx.embeddings q ctx.norms qnorm) 3).length =
      min 3 ctx.rows.length := by
    rw [top_n_indices_length, hsl]
  have hrspos : 0 < rs.length := by
    rw [hlen, htn]
    exact lt_min (by norm_num) hpos
  have hspos : 0 < (top_n_similarities
      (dag_similarities ctx.embeddings q ctx.norms qnorm) 3).length := by
    rw [top_n_similarities, List.length_map, htn]
    exact lt_min (by norm_num) hpos
  cases hrse : rs with
  | nil => rw [hrse] at hrspos; exact absurd hrspos (by simp)
  | cons top rest =>
    cases hse : top_n_similarities
        (dag_similarities ctx.embeddings q ctx.norms qnorm) 3 with
    | nil => rw [hse] at hspos; exact absurd hspos (by simp)
    | cons s0 srest =>
      refine ⟨{ base_product_name_from_line := row.product_name
                base_product_name_from_watson := top.product_name
                price_from_line := row.sale_price
                price_from_watson := top.sale_price
                similarity := s0
                verified_match := false }, ?_, rfl⟩
      simp only [attemptBody]
      rw [hrs]
      simp only
      rw [verify_error, hrse, hse]

/-! ### Claim C1 -/

/-- Claim C1, counterexample to the claim as stated: the raw model response
"EUCERIN Sun Gel " (trailing space) does not exactly equal any supplied
candidate name, yet the verifier accepts it as a match, because line 195
strips the raw response before the comparison.  The claim that any response
differing from every candidate in whitespace yields `(None, False)` is
therefore false. -/
theorem verify_accepts_trailing_whitespace_response :
    verify_products_similarity ["EUCERIN Sun Gel"]
      (.ok ("EUCERIN Sun Gel ")) = (some ("EUCERIN Sun Gel"), true) ∧
    "EUCERIN Sun Gel " ∉ ["EUCERIN Sun Gel"] := by
  constructor
  · decide
  · decide

/-- Claim C1 (amended): the verifier accepts a response as a match only if
the response, after stripping leading and trailing whitespace, exactly
(case-sensitively) equals one of the supplied candidate names and is not the
literal string "None"; any response whose stripped form differs from every
candidate — including by interior whitespace or by case — yields the
no-match result `(None, False)`, as does any failed call. -/
theorem verify_trim_exact_match_characterization :
    (∀ (cands : List String) (resp : Except Err String) (m : String),
      verify_products_similarity cands resp = (some m, true) ↔
        ∃ raw, resp = .ok raw ∧ m = pyStrip raw ∧ pyStrip raw ≠ "None" ∧
          pyStrip raw ∈ cands) ∧
    (∀ (cands : List String) (raw : String), pyStrip raw ∉ cands →
      verify_products_similarity cands (.ok raw) = (none, false)) ∧
    (∀ (cands : List String) (e : Err),
      verify_products_similarity cands (.error e) = (none, false)) := by
  refine ⟨verify_spec, ?_, verify_error⟩
  intro cands raw hraw
  unfold verify_products_similarity
  by_cases hc : cands.isEmpty
  · simp [hc]
  · have hg : ¬(pyStrip raw ≠ "None" ∧ pyStrip raw ∈ cands) :=
      fun hg => hraw hg.2
    simp [hc, hg]

/-- Witness for C1: the spec's own strictness example — a response with
doubled interior whitespace against the single candidate — is rejected. -/
theorem verify_trim_exact_match_witness :
    verify_products_similarity ["EUCERIN Sun Gel"]
      (.ok ("EUCERIN  Sun Gel")) = (none, false) :=
  verify_trim_exact_match_characterization.2.1 ["EUCERIN Sun Gel"]
    ("EUCERIN  Sun Gel") (by decide)

/-! ### Claim C10 -/

/-- Claim C10: a raw verifier response that strips to the reserved string
"None" yields the no-match result even when a candidate is literally named
"None" (line 196 tests `content != 'None'` before the membership test), and
consequently no record that the row pipeline marks as verified can carry the
matched name "None". -/
theorem verifier_never_returns_literal_none :
    (∀ (cands : List String) (raw : String), pyStrip raw = "None" →
      verify_products_similarity cands (.ok raw) = (none, false)) ∧
    (∀ (row : Row) (ctx : Context) (envs : ℕ → AttemptEnv)
      (r : CompareRecord), process_product_row row ctx envs = some r →
      r.verified_match = true → r.base_product_name_from_watson ≠ "None") := by
  constructor
  · intro cands raw hraw
    unfold verify_products_similarity
    by_cases hc : cands.isEmpty
    · simp [hc]
    · have hg : ¬(pyStrip raw ≠ "None" ∧ pyStrip raw ∈ cands) :=
        fun hg => hg.1 hraw
      simp [hc, hg]
  · intro row ctx envs r h hv
    unfold process_product_row at h
    by_cases hname : row.product_name = ""
    · simp [hname] at h
    · rw [if_neg hname, Option.some.injEq] at h
      rcases runAttempts_cases (fun i => attemptBody row ctx (envs i))
          (failedRecord row) 0 3 with hfb | ⟨j, hj⟩
      · rw [← h, hfb] at hv
        exact absurd hv (by simp [failedRecord])
      · exact attemptBody_verified_name row ctx (envs j) r (h ▸ hj) hv

/-- Witness for C10: a candidate list containing the literal name "None" and
the verifier answering exactly "None" still produce the no-match result. -/
theorem verifier_never_returns_literal_none_witness :
    verify_products_similarity ["None"] (.ok ("None")) = (none, false) :=
  verifier_never_returns_literal_none.1 ["None"] ("None") (by decide)

/-! ### Claim C8 -/

/-- Claim C8, counterexample to the claim as stated: a corrupt persisted
blob is not treated as an empty cache — `pickle.load` raises and only
`FileNotFoundError` is handled, so the load fails fatally. -/
theorem cache_load_corrupt_raises :
    loadEmbeddingCache .corrupt = .error .unpickling ∧
    (loadEmbeddingCache .corrupt).isOk = false := ⟨rfl, rfl⟩

/-- Claim C8 (amended): on cache load, a missing persisted blob is treated
as an empty cache and a readable blob is used as-is, but a corrupt
(undeserializable) blob raises an uncaught exception and is fatal — only the
missing-file condition is non-fatal. -/
theorem cache_load_missing_empty_corrupt_fatal :
    loadEmbeddingCache .missing = .ok [] ∧
    loadEmbeddingCache .corrupt = .error .unpickling ∧
    ∀ c, loadEmbeddingCache (.good c) = .ok c :=
  ⟨rfl, rfl, fun _ => rfl⟩

/-! ### Claim C9 -/

/-- Claim C9: every row of the final high-confidence report has
`similarity ≥ 0.8` and `verified_match = true` and carries the `diff` column
`price_from_line / price_from_watson` (the query-to-matched price ratio);
rows failing either condition are excluded.  (The standalone report variant,
write_compare_price_report.py line 109, computes the signed difference
`report_diff` instead.) -/
theorem filtered_report_threshold_verified_ratio :
    ∀ (df_results : List CompareRecord),
      (∀ p ∈ filtered_df_results df_results,
        0.8 ≤ p.1.similarity ∧ p.1.verified_match = true ∧
          p.2 = p.1.price_from_line / p.1.price_from_watson ∧
          p.1 ∈ df_results) ∧
      (∀ r ∈ df_results, r.similarity < 0.8 ∨ r.verified_match = false →
        ∀ q, (r, q) ∉ filtered_df_results df_results) ∧
      ∀ w l, report_diff w l = w - l := by
  intro df_results
  refine ⟨?_, ?_, fun w l => rfl⟩
  · intro p hp
    unfold filtered_df_results at hp
    obtain ⟨r, hr, rfl⟩ := List.mem_map.mp hp
    have hf := List.mem_filter.mp hr
    have hcond := hf.2
    simp only [Bool.and_eq_true, decide_eq_true_eq] at hcond
    exact ⟨hcond.1, hcond.2, rfl, hf.1⟩
  · intro r hr hcond q hq
    unfold filtered_df_results at hq
    obtain ⟨r', hr', heq⟩ := List.mem_map.mp hq
    have hfst : r' = r := congrArg Prod.fst heq
    subst hfst
    have hf := (List.mem_filter.mp hr').2
    simp only [Bool.and_eq_true, decide_eq_true_eq] at hf
    rcases hcond with hlt | hfalse
    · exact absurd hf.1 (not_le.mpr hlt)
    · rw [hfalse] at hf
      exact absurd hf.2 (by simp)

/-- Witness for C9: in a table with one passing and one failing record, the
failing record (similarity one half, below the threshold) is excluded from
the report regardless of the diff value attached. -/
theorem filtered_report_excludes_low_similarity_witness :
    ((⟨"q2", "w2", 1, 2, 1/2, true⟩ : CompareRecord), (0 : ℚ)) ∉
      filtered_df_results
        [⟨"q1", "w1", 9, 10, 9/10, true⟩, ⟨"q2", "w2", 1, 2, 1/2, true⟩] :=
  (filtered_report_threshold_verified_ratio
      [⟨"q1", "w1", 9, 10, 9/10, true⟩, ⟨"q2", "w2", 1, 2, 1/2, true⟩]).2.1
    ⟨"q2", "w2", 1, 2, 1/2, true⟩ (by simp)
    (Or.inl (by norm_num)) 0

/-! ### Claim C4 -/

/-- The argsort is sorted ascending by value with ties in index order. -/
theorem argsortAsc_sorted (sims : List ℚ) :
    (argsortAsc sims).Pairwise (idxLe sims) :=
  List.sorted_insertionSort (idxLe sims) (List.range sims.length)

/-- The argsort lists each index once. -/
theorem argsortAsc_nodup (sims : List ℚ) : (argsortAsc sims).Nodup :=
  ((argsortAsc_perm sims).nodup_iff).mpr (List.nodup_range _)

/-- Consecutive structure of the top-n slice: each earlier index has a
strictly larger value, or an equal value and a strictly larger index. -/
theorem top_n_indices_pairwise (sims : List ℚ) (top_n : ℕ) :
    (top_n_indices sims top_n).Pairwise
      (fun i j => idxLe sims j i ∧ i ≠ j) := by
  have hrev : ((argsortAsc sims).reverse).Pairwise
      (fun i j => idxLe sims j i) :=
    List.pairwise_reverse.mpr (argsortAsc_sorted sims)
  have hrevne : ((argsortAsc sims).reverse).Pairwise (fun i j => i ≠ j) :=
    List.nodup_reverse.mpr (argsortAsc_nodup sims)
  exact (hrev.and hrevne).sublist (List.take_sublist top_n _)

/-- The index-similarity pairs are the indices paired with their values. -/
theorem topKPairs_eq_map (sims : List ℚ) (top_n : ℕ) :
    topKPairs sims top_n =
      (top_n_indices sims top_n).map (fun i => (i, sims.getD i 0)) := by
  rw [topKPairs, top_n_similarities]
  induction top_n_indices sims top_n with
  | nil => rfl
  | cons i is ih => simp only [List.map_cons, List.zip_cons_cons, ih]

/-- Claim C4, counterexample to the claim as stated: on two candidates with
equal similarity, the retrieval returns index 1 before index 0 — ties are
broken by reverse table order, not by original table order, because line 162
reverses an ascending argsort. -/
theorem topIndices_tie_reversed :
    top_n_indices [1, 1] 2 = [1, 0] ∧ top_n_indices [1, 1] 2 ≠ [0, 1] := by
  constructor
  · decide
  · decide

/-- Claim C4 (amended): for every similarity vector and every k, the top-k
retrieval returns the (index, cosine similarity) pairs of length
`min k |index|`, sorted in descending order of similarity, with ties between
equal similarities broken by the reverse of the candidates' original
base-table order (later rows first), since the code reverses a stably
ascending argsort. -/
theorem topk_length_desc_reverse_ties :
    ∀ (sims : List ℚ) (top_n : ℕ),
      (topKPairs sims top_n).length = min top_n sims.length ∧
      (topKPairs sims top_n).Pairwise
        (fun p q => q.2 < p.2 ∨ (q.2 = p.2 ∧ q.1 < p.1)) ∧
      ∀ p ∈ topKPairs sims top_n,
        p.1 < sims.length ∧ p.2 = sims.getD p.1 0 := by
  intro sims top_n
  refine ⟨?_, ?_, ?_⟩
  · rw [topKPairs_eq_map, List.length_map, top_n_indices_length]
  · rw [topKPairs_eq_map, List.pairwise_map]
    refine (top_n_indices_pairwise sims top_n).imp ?_
    intro i j hij
    obtain ⟨hle, hne⟩ := hij
    rcases hle with hlt | ⟨heq, hji⟩
    · exact Or.inl hlt
    · exact Or.inr ⟨heq, lt_of_le_of_ne hji (fun hji' => hne hji'.symm)⟩
  · intro p hp
    rw [topKPairs_eq_map] at hp
    obtain ⟨i, hi, rfl⟩ := List.mem_map.mp hp
    exact ⟨mem_top_n_indices_lt sims top_n i hi, rfl⟩

/-- Witness for C4: on the similarity vector `[1, 3, 2]` with k = 2, the
retrieval keeps `min 2 3` pairs and the pair `(1, 3)` is a well-formed
in-range entry. -/
theorem topk_length_desc_reverse_ties_witness :
    (topKPairs [1, 3, 2] 2).length = min 2 3 ∧
    ((1 : ℕ) < ([1, 3, 2] : List ℚ).length ∧
      (3 : ℚ) = ([1, 3, 2] : List ℚ).getD 1 0) :=
  ⟨(topk_length_desc_reverse_ties [1, 3, 2] 2).1,
    (topk_length_desc_reverse_ties [1, 3, 2] 2).2.2 (1, 3) (by decide)⟩

/-! ### Claim C5 -/

/-- Claim C5, counterexample to the claim as stated: the DAG variant
(mapping_product_name.py lines 157-165) has no norm guard — for a zero-norm
query over a one-product context the retrieval performs the division with
the zero norm factor and still returns one candidate index, not an empty
sequence.  (The length of the returned index list never depends on the
similarity values, so the rational model of the nan-valued division is
faithful here.) -/
theorem dag_zero_norm_returns_nonempty :
    top_n_indices (dag_similarities [[1]] [0] [1] 0) 3 = [0] ∧
    top_n_indices (dag_similarities [[1]] [0] [1] 0) 3 ≠ [] := by
  constructor
  · decide
  · decide

/-- Claim C5 (amended): only the archived gemini variant guards the query
norm — a query embedding that is empty or has norm below `1e-9` makes its
`find_best_match_in_context` return the sentinel `(-1, 0.0)` without
performing the division; the DAG variant performs the division unguarded and
always returns `min top_n |context|` candidates. -/
theorem zero_norm_query_guard_and_unguarded_topn :
    (∀ (q : List ℚ) (ctx : List (List ℚ)) (norms : List ℚ) (qnorm : ℚ),
      qnorm < 1 / 1000000000 →
      gemini_find_best_match q ctx norms qnorm = (-1, 0)) ∧
    (∀ (ctx : List (List ℚ)) (q : List ℚ) (norms : List ℚ) (qnorm : ℚ)
      (top_n : ℕ), norms.length = ctx.length →
      (top_n_indices (dag_similarities ctx q norms qnorm) top_n).length =
        min top_n ctx.length) := by
  constructor
  · intro q ctx norms qnorm h
    unfold gemini_find_best_match
    by_cases hq : q.length = 0
    · rw [if_pos hq]
    · rw [if_neg hq, if_pos h]
  · intro ctx q norms qnorm top_n hlen
    rw [top_n_indices_length, dag_similarities_length, hlen, min_self]

/-- Witness for C5: a zero query norm triggers the gemini guard, and the
unguarded DAG retrieval on a one-product context returns `min 3 1`
candidates. -/
theorem zero_norm_query_guard_witness :
    gemini_find_best_match [0] [[1]] [1] 0 = (-1, 0) ∧
    (top_n_indices (dag_similarities [[1]] [0] [1] 0) 3).length = min 3 1 :=
  ⟨zero_norm_query_guard_and_unguarded_topn.1 [0] [[1]] [1] 0 (by norm_num),
    zero_norm_query_guard_and_unguarded_topn.2 [[1]] [0] [1] 0 3 rfl⟩

/-! ### Claim C6 -/

/-- Dict assignment in batch order equals prepending the reversed entry
list. -/
theorem insertBatch_eq_reverse_append :
    ∀ (kvs : List (String × List ℚ)) (c : Cache),
      insertBatch c kvs = kvs.reverse ++ c := by
  intro kvs
  induction kvs with
  | nil => intro c; rfl
  | cons kv kvs ih =>
    intro c
    have h1 : insertBatch c (kv :: kvs) = insertBatch (kv :: c) kvs := rfl
    rw [h1, ih]
    simp

/-- A lookup skips any prefix whose keys avoid the requested key. -/
theorem cacheLookup_not_mem_append :
    ∀ (l : List (String × List ℚ)) (c : Cache) (k : String),
      k ∉ l.map Prod.fst → cacheLookup (l ++ c) k = cacheLookup c k := by
  intro l
  induction l with
  | nil => intro c k _; rfl
  | cons p l ih =>
    intro c k h
    simp only [List.map_cons, List.mem_cons, not_or] at h
    rw [List.cons_append, cacheLookup, List.find?_cons_of_neg _ (by
      simp only [beq_iff_eq]
      exact fun he => h.1 he.symm)]
    exact ih c k h.2

/-- Assigning a batch whose keys avoid `k` leaves the lookup of `k`
unchanged. -/
theorem cacheLookup_insertBatch_of_not_mem (c : Cache)
    (kvs : List (String × List ℚ)) (k : String)
    (h : k ∉ kvs.map Prod.fst) :
    cacheLookup (insertBatch c kvs) k = cacheLookup c k := by
  rw [insertBatch_eq_reverse_append]
  apply cacheLookup_not_mem_append
  rw [List.map_reverse, List.mem_reverse]
  exact h

/-- Assigning a batch with distinct keys makes each of its entries
retrievable. -/
theorem cacheLookup_insertBatch_of_mem :
    ∀ (kvs : List (String × List ℚ)) (c : Cache) (k : String) (v : List ℚ),
      (kvs.map Prod.fst).Nodup → (k, v) ∈ kvs →
      cacheLookup (insertBatch c kvs) k = some v := by
  intro kvs
  induction kvs with
  | nil => intro c k v _ hmem; cases hmem
  | cons p kvs ih =>
    intro c k v hnd hmem
    have h1 : insertBatch c (p :: kvs) = insertBatch (p :: c) kvs := rfl
    rw [h1]
    rcases List.mem_cons.mp hmem with heq | hmem'
    · subst heq
      have hnd' := List.nodup_cons.mp
        (by rw [List.map_cons] at hnd; exact hnd)
      rw [cacheLookup_insertBatch_of_not_mem _ _ _ hnd'.1]
      simp [cacheLookup]
    · have hnd' := List.nodup_cons.mp
        (by rw [List.map_cons] at hnd; exact hnd)
      exact ih (p :: c) k v hnd'.2 hmem'

/-- The first components of a zip form a sublist of the first list. -/
theorem map_fst_zip_sublist {α β : Type _} :
    ∀ (l₁ : List α) (l₂ : List β),
      ((l₁.zip l₂).map Prod.fst).Sublist l₁
  | [], _ => by simp
  | _ :: _, [] => by simp
  | a :: l₁, b :: l₂ => by
    simp only [List.zip_cons_cons, List.map_cons]
    exact List.cons_sublist_cons.mpr (map_fst_zip_sublist l₁ l₂)

/-- The keys a batch assigns form a sublist of the batch. -/
theorem batchAssign_fst_sublist (api : List String → Except Err (List (List ℚ)))
    (batch : List String) :
    ((batchAssign api batch).map Prod.fst).Sublist batch := by
  unfold batchAssign
  cases api batch with
  | ok embs => exact map_fst_zip_sublist batch embs
  | error e =>
    rw [List.map_map]
    have : (Prod.fst ∘ fun t : String => (t, ([] : List ℚ))) = id := rfl
    rw [this, List.map_id]

/-- Folding batches none of which mention `t` leaves the lookup of `t`
unchanged. -/
theorem lookup_foldBatches_not_mem
    (api : List String → Except Err (List (List ℚ))) :
    ∀ (batches : List (List String)) (c : Cache) (t : String),
      (∀ b ∈ batches, t ∉ b) →
      cacheLookup (batches.foldl
        (fun c batch => insertBatch c (batchAssign api batch)) c) t =
        cacheLookup c t := by
  intro batches
  induction batches with
  | nil => intro c t _; rfl
  | cons b batches ih =>
    intro c t h
    rw [List.foldl_cons,
      ih _ t (fun b' hb' => h b' (List.mem_cons_of_mem b hb')),
      cacheLookup_insertBatch_of_not_mem]
    intro hm
    exact h b (List.mem_cons_self b batches)
      ((batchAssign_fst_sublist api b).subset hm)

/-- Folding pairwise-disjoint batches stores each entry of each batch at its
key. -/
theorem lookup_foldBatches_mem
    (api : List String → Except Err (List (List ℚ))) :
    ∀ (batches : List (List String)) (c : Cache) (b : List String),
      b ∈ batches → batches.Pairwise List.Disjoint → b.Nodup →
      ∀ (t : String) (v : List ℚ), (t, v) ∈ batchAssign api b →
      cacheLookup (batches.foldl
        (fun c batch => insertBatch c (batchAssign api batch)) c) t =
        some v := by
  intro batches
  induction batches with
  | nil => intro c b hb; cases hb
  | cons b0 rest ih =>
    intro c b hb hpw hnd t v hmem
    have ht : t ∈ (batchAssign api b).map Prod.fst :=
      List.mem_map.mpr ⟨(t, v), hmem, rfl⟩
    rw [List.foldl_cons]
    rcases List.mem_cons.mp hb with rfl | hbrest
    · have htb : t ∈ b := (batchAssign_fst_sublist api b).subset ht
      have hnot : ∀ b' ∈ rest, t ∉ b' := fun b' hb' hmem' =>
        (List.pairwise_cons.mp hpw).1 b' hb' htb hmem'
      rw [lookup_foldBatches_not_mem api rest _ t hnot]
      exact cacheLookup_insertBatch_of_mem _ _ t v
        (((batchAssign_fst_sublist api b).nodup hnd)) hmem
    · exact ih _ b hbrest (List.pairwise_cons.mp hpw).2 hnd t v hmem

/-- The chunks reassemble to the chunked list. -/
theorem chunksOfAux_flatten (bs : ℕ) (hbs : bs ≠ 0) :
    ∀ (fuel : ℕ) (l : List String), l.length ≤ fuel →
      (chunksOfAux bs fuel l).flatten = l := by
  intro fuel
  induction fuel with
  | zero =>
    intro l hl
    have : l = [] := List.eq_nil_of_length_eq_zero (Nat.le_zero.mp hl)
    subst this
    rfl
  | succ fuel ih =>
    intro l hl
    cases l with
    | nil => rfl
    | cons x xs =>
      show ((x :: xs).take bs :: chunksOfAux bs fuel
        ((x :: xs).drop bs)).flatten = x :: xs
      rw [List.flatten_cons, ih _ (by
        rw [List.length_drop]
        have := List.length_cons x xs ▸ hl
        omega)]
      exact List.take_append_drop bs (x :: xs)

/-- The chunks of a list reassemble to it (for the positive batch sizes the
code uses). -/
theorem chunksOf_flatten (bs : ℕ) (l : List String) (hbs : bs ≠ 0) :
    (chunksOf bs l).flatten = l := by
  unfold chunksOf
  rw [if_neg hbs]
  exact chunksOfAux_flatten bs hbs l.length l le_rfl

/-- The deduplicated, sorted embed list has no duplicates. -/
theorem textsToEmbed_nodup (texts : List String) (cache : Cache) :
    (textsToEmbed texts cache).Nodup :=
  (List.perm_insertionSort _ _).nodup_iff.mpr (List.nodup_dedup _)

/-- Claim C6: if the remote call for a batch fails, every text of that batch
is bound to the empty-vector failure sentinel in the returned cache, and
every other batch is still processed normally — a successful batch binds
each of its texts to its positionally zipped vector whether or not some
other batch failed. -/
theorem failed_batch_sentinel_and_continue :
    ∀ (texts : List String) (cache : Cache) (batch_size : ℕ)
      (api : List String → Except Err (List (List ℚ)))
      (batch : List String),
      batch ∈ chunksOf batch_size (textsToEmbed texts cache) →
      (∀ e, api batch = .error e → ∀ t ∈ batch,
        cacheLookup (get_embeddings_with_caching texts cache batch_size api)
          t = some []) ∧
      (∀ embs, api batch = .ok embs → ∀ (t : String) (v : List ℚ),
        (t, v) ∈ batch.zip embs →
        cacheLookup (get_embeddings_with_caching texts cache batch_size api)
          t = some v) := by
  intro texts cache bs api batch hbatch
  have hbs : bs ≠ 0 := by
    intro h
    rw [h] at hbatch
    simp [chunksOf] at hbatch
  have hne : textsToEmbed texts cache ≠ [] := by
    intro h
    rw [h] at hbatch
    simp [chunksOf, chunksOfAux] at hbatch
  have hnem : (textsToEmbed texts cache).isEmpty = false := by
    cases he : textsToEmbed texts cache with
    | nil => exact absurd he hne
    | cons a l => rfl
  have hfold : get_embeddings_with_caching texts cache bs api =
      (chunksOf bs (textsToEmbed texts cache)).foldl
        (fun c batch => insertBatch c (batchAssign api batch)) cache := by
    unfold get_embeddings_with_caching
    rw [hnem]
    rfl
  have hflat := (List.nodup_flatten).mp
    (by rw [chunksOf_flatten bs _ hbs]; exact textsToEmbed_nodup texts cache)
  have hbnd : batch.Nodup := hflat.1 batch hbatch
  constructor
  · intro e herr t ht
    rw [hfold]
    apply lookup_foldBatches_mem api _ cache batch hbatch hflat.2 hbnd t []
    unfold batchAssign
    rw [herr]
    exact List.mem_map.mpr ⟨t, ht, rfl⟩
  · intro embs hok t v hzip
    rw [hfold]
    apply lookup_foldBatches_mem api _ cache batch hbatch hflat.2 hbnd t v
    unfold batchAssign
    rw [hok]
    exact hzip

/-- Witness for C6: four raw texts (one duplicated) over batch size 2; the
remote call fails on the first batch and succeeds on the second, so both
texts of the failed batch carry the empty-vector sentinel while the later
batch is still embedded. -/
theorem failed_batch_sentinel_and_continue_witness :
    cacheLookup (get_embeddings_with_caching ["b", "a", "c", "a"] [] 2
      (fun batch => if batch = ["a", "b"] then .error .remote
        else .ok (batch.map (fun _ => ([1] : List ℚ))))) ("a") = some [] ∧
    cacheLookup (get_embeddings_with_caching ["b", "a", "c", "a"] [] 2
      (fun batch => if batch = ["a", "b"] then .error .remote
        else .ok (batch.map (fun _ => ([1] : List ℚ))))) ("c") =
      some [1] := by
  constructor
  · exact (failed_batch_sentinel_and_continue ["b", "a", "c", "a"] [] 2
      (fun batch => if batch = ["a", "b"] then .error .remote
        else .ok (batch.map (fun _ => ([1] : List ℚ)))) ["a", "b"]
      (by decide)).1 .remote rfl ("a") (by decide)
  · exact (failed_batch_sentinel_and_continue ["b", "a", "c", "a"] [] 2
      (fun batch => if batch = ["a", "b"] then .error .remote
        else .ok (batch.map (fun _ => ([1] : List ℚ)))) ["c"]
      (by decide)).2 [[1]] rfl ("c") [1] (by decide)

/-! ### Claim C2 -/

/-- Claim C2: if every one of the three attempts of the match-and-verify
step raises, the row resolves to the failure sentinel record
(`matchedName = "Matching Failed"`, `matchedPrice = 0`, `similarity = 0`,
`verified = false`), and the batch driver emits exactly this sentinel for
the row and keeps processing the remaining rows — no exception escapes the
row boundary. -/
theorem all_attempts_error_yields_failed_sentinel :
    ∀ (row : Row) (ctx : Context) (envs : ℕ → AttemptEnv),
      row.product_name ≠ "" →
      (∀ i, i < 3 → (attemptBody row ctx (envs i)).isOk = false) →
      process_product_row row ctx envs =
        some { base_product_name_from_line := row.product_name
               base_product_name_from_watson := "Matching Failed"
               price_from_line := row.sale_price
               price_from_watson := 0
               similarity := 0
               verified_match := false } ∧
      ∀ (rest : List Row) (envsT : ℕ → ℕ → AttemptEnv), envsT 0 = envs →
        processQueryTable ctx (row :: rest) envsT =
          failedRecord row ::
            processQueryTable ctx rest (fun i => envsT (i + 1)) := by
  intro row ctx envs hname herr
  have hstep : ∀ i, i < 3 → ∃ e, attemptBody row ctx (envs i) = .error e := by
    intro i hi
    cases hb : attemptBody row ctx (envs i) with
    | ok r =>
      have hok := herr i hi
      rw [hb] at hok
      simp [Except.isOk, Except.toBool] at hok
    | error e => exact ⟨e, rfl⟩
  obtain ⟨e0, h0⟩ := hstep 0 (by norm_num)
  obtain ⟨e1, h1⟩ := hstep 1 (by norm_num)
  obtain ⟨e2, h2⟩ := hstep 2 (by norm_num)
  have hrun : runAttempts (fun i => attemptBody row ctx (envs i))
      (failedRecord row) 0 3 = failedRecord row := by
    unfold runAttempts
    rw [h0]
    unfold runAttempts
    rw [h1]
    unfold runAttempts
    rw [h2]
    rfl
  have hproc : process_product_row row ctx envs = some (failedRecord row) := by
    unfold process_product_row
    rw [if_neg hname, hrun]
  constructor
  · rw [hproc]; rfl
  · intro rest envsT henvs
    show (match process_product_row row ctx (envsT 0) with
      | none => processQueryTable ctx rest (fun i => envsT (i + 1))
      | some r => r :: processQueryTable ctx rest (fun i => envsT (i + 1)))
        = _
    rw [henvs, hproc]

/-- Witness for C2: a row whose three attempts all raise a remote error
resolves to the sentinel record. -/
theorem all_attempts_error_yields_failed_sentinel_witness :
    process_product_row ⟨"X", 5⟩ ⟨[], [], []⟩
      (fun _ => ⟨.error .remote, .error .remote⟩) =
      some ⟨"X", "Matching Failed", 5, 0, 0, false⟩ :=
  (all_attempts_error_yields_failed_sentinel ⟨"X", 5⟩ ⟨[], [], []⟩
    (fun _ => ⟨.error .remote, .error .remote⟩) (by decide)
    (fun i _ => rfl)).1

/-! ### Claim C3 -/

/-- Claim C3: the pipeline emits exactly one result record per query row
with a non-blank name — the emitted count equals the number of rows whose
`product_name` is non-empty — and a row is skipped (returns `None`) exactly
when its name is blank. -/
theorem pipeline_emits_one_record_per_nonblank_row :
    (∀ (ctx : Context) (rows : List Row) (envs : ℕ → ℕ → AttemptEnv),
      (processQueryTable ctx rows envs).length =
        (rows.filter (fun row => row.product_name ≠ "")).length) ∧
    (∀ (row : Row) (ctx : Context) (envs : ℕ → AttemptEnv),
      process_product_row row ctx envs = none ↔ row.product_name = "") := by
  have hnone : ∀ (row : Row) (ctx : Context) (envs : ℕ → AttemptEnv),
      process_product_row row ctx envs = none ↔ row.product_name = "" := by
    intro row ctx envs
    unfold process_product_row
    by_cases hname : row.product_name = "" <;> simp [hname]
  refine ⟨?_, hnone⟩
  intro ctx rows
  induction rows with
  | nil => intro envs; rfl
  | cons row rest ih =>
    intro envs
    unfold processQueryTable
    cases hp : process_product_row row ctx (envs 0) with
    | none =>
      have hb : row.product_name = "" := (hnone row ctx (envs 0)).mp hp
      rw [List.filter_cons_of_neg (by simp [hb])]
      exact ih _
    | some r =>
      have hb : ¬row.product_name = "" := by
        intro hblank
        rw [(hnone row ctx (envs 0)).mpr hblank] at hp
        exact absurd hp (by simp)
      rw [List.filter_cons_of_pos (by simp [hb]), List.length_cons,
        List.length_cons, ih _]

/-! ### Claim C7 -/

/-- Claim C7, counterexample to the claim as stated: a row whose remote
verification call raises on every attempt does not retry and does not
resolve to the failure sentinel — the exception is caught inside
`verify_products_similarity` (lines 200-202), converted to no-match, and the
row resolves to the unverified top-1 best guess on the first attempt. -/
theorem verify_error_resolves_unverified_not_failed :
    process_product_row ⟨"Q", 1⟩ ⟨[⟨"B", 2⟩], [[1]], [1]⟩
      (fun _ => ⟨.ok ([1], 1), .error .remote⟩) =
      some ⟨"Q", "B", 1, 2, 1, false⟩ ∧
    ("B" : String) ≠ "Matching Failed" := by
  constructor
  · have hq : ("Q" : String) ≠ "" := by decide
    norm_num [process_product_row, hq, runAttempts, attemptBody,
      dag_similarities, dot, top_n_indices, top_n_similarities, argsortAsc,
      idxLe, fetchRows, verify_products_similarity]
  · decide

/-- Claim C7 (amended): an exception escaping the per-attempt body — for
instance one raised while embedding the query — is retried, up to 3 attempts
in total, with the fixed 5-second pause between attempts; the retry loop
inspects no attempt beyond the third; but an exception raised inside the
remote verification call is caught within `verify_products_similarity` and
converted to the no-match result, so the attempt completes as an unverified
best guess instead of triggering a retry. -/
theorem retry_on_attempt_error_not_on_verify_error :
    (∀ (row : Row) (ctx : Context) (envs : ℕ → AttemptEnv) (e : Err)
      (r : CompareRecord), row.product_name ≠ "" →
      attemptBody row ctx (envs 0) = .error e →
      attemptBody row ctx (envs 1) = .ok r →
      process_product_row row ctx envs = some r) ∧
    (∀ (row : Row) (ctx : Context) (envs envs' : ℕ → AttemptEnv),
      (∀ i, i < 3 → envs i = envs' i) →
      process_product_row row ctx envs = process_product_row row ctx envs') ∧
    (∀ (row : Row) (ctx : Context) (q : List ℚ) (qnorm : ℚ) (e : Err),
      ctx.rows ≠ [] → ctx.embeddings.length = ctx.rows.length →
      ctx.norms.length = ctx.rows.length →
      ∃ r, attemptBody row ctx ⟨.ok (q, qnorm), .error e⟩ = .ok r ∧
        r.verified_match = false) := by
  refine ⟨?_, ?_, ?_⟩
  · intro row ctx envs e r hname h0 h1
    unfold process_product_row
    rw [if_neg hname]
    unfold runAttempts
    rw [h0]
    unfold runAttempts
    rw [h1]
  · intro row ctx envs envs' h
    unfold process_product_row
    by_cases hname : row.product_name = ""
    · simp [hname]
    · rw [if_neg hname, if_neg hname,
        runAttempts_congr (fun i => attemptBody row ctx (envs i))
          (fun i => attemptBody row ctx (envs' i)) (failedRecord row) 3 0
          (fun j h1 h2 =>
            show attemptBody row ctx (envs j) =
              attemptBody row ctx (envs' j) by rw [h j (by omega)])]
  · intro row ctx q qnorm e hrows hemb hnorm
    exact attemptBody_verify_error_ok row ctx q qnorm e hrows hemb hnorm

/-- Witness for C7: on a concrete one-row context, an attempt whose
verification call raises still completes without raising, as an unverified
record. -/
theorem retry_on_attempt_error_witness :
    ∃ r, attemptBody ⟨"Q", 1⟩ ⟨[⟨"B", 2⟩], [[1]], [1]⟩
      ⟨.ok ([1], 1), .error .remote⟩ = .ok r ∧ r.verified_match = false :=
  retry_on_attempt_error_not_on_verify_error.2.2 ⟨"Q", 1⟩
    ⟨[⟨"B", 2⟩], [[1]], [1]⟩ [1] 1 .remote (by decide) rfl rfl

end DemoEcommerce
